import Mathlib

/-!
Verification of the document indexing-and-retrieval pipeline
(`embed.py` / `query_rag.py`): a shallow embedding of text extraction,
file discovery, the indexing run of `DocumentIndexer.index_directory`,
and `QueryEngine.search`, together with theorems settling the spec's
claims about them.

Numeric distances/scores are modelled with `ℚ` (the claims are about the
`1 - distance` transform and ordering, not about rounding).
-/

namespace SecondMe

/-! ## Errors

Python exceptions that the modelled code can raise or catch. -/

inductive PyErr where
  /-- `IOError` / `OSError`: the file could not be read. -/
  | ioError
  /-- `ValueError`: unsupported file type in `_extract_text`. -/
  | valueError
  /-- `IndexError`: sequence index out of range (e.g. `[0]` on an empty list). -/
  | indexError
  deriving Repr, DecidableEq

/-- A vector-store (`chromadb`) failure, raised by the store client and
caught at the call sites `get_indexed_docs` / `search` / the insert loop. -/
inductive StoreErr where
  | storeError
  deriving Repr, DecidableEq

/-! ## Files and filesystem

A file is modelled by the directory it sits in (as path components from the
filesystem root), its base name (`Path.name` in the source), and its content.
The content constructor records what the parser that the file's extension
dispatches to would produce from the file's bytes:

* `markup segments`: the file is readable and `BeautifulSoup(file, "html.parser")`
  parses it into the given list of text segments (the document's
  `NavigableString`s, in document order);
* `table header rows`: the file is readable and `pd.read_csv` parses it into
  a frame whose column labels are `header` (the first CSV line) and whose
  data cells, row-major and after `astype(str)`, are `rows`;
* `unreadable`: `open`/`read_csv` raises `IOError`/`OSError` on this file.
-/

inductive Content where
  | markup (segments : List String)
  | table (header : List String) (rows : List (List String))
  | unreadable
  deriving Repr, DecidableEq

structure Fyle where
  dir : List String
  base : String
  content : Content
  deriving Repr, DecidableEq

/-- `str(file_path)`: the path string of a file. -/
def Fyle.pathStr (f : Fyle) : String :=
  String.intercalate "/" (f.dir ++ [f.base])

/-- Python `s[:n]`: the first `n` characters (code points) of a string,
or the whole string when it is shorter. -/
def pyTake (s : String) (n : Nat) : String :=
  ⟨s.data.take n⟩

/-- Python `str.strip()`: drop leading and trailing whitespace. -/
def pyStrip (s : String) : String :=
  ⟨(((s.data.dropWhile Char.isWhitespace).reverse).dropWhile Char.isWhitespace).reverse⟩

/-- Python `str.endswith(p)`. -/
def strEndsWith (s p : String) : Bool :=
  decide (p.data.length ≤ s.data.length) &&
    s.data.drop (s.data.length - p.data.length) == p.data

/-- The index of the last occurrence of `c`, Python `str.rfind` (as `none`
for `-1`). -/
def lastIdxOf (c : Char) : List Char → Option Nat
  | [] => none
  | a :: as =>
      match lastIdxOf c as with
      | some i => some (i + 1)
      | none => if a = c then some 0 else none

/-- `PurePath.suffix`: `name[i:]` where `i = name.rfind('.')`, provided
`0 < i < len(name) - 1`; otherwise the empty string (so no dot, a leading
dot as in `".bashrc"`, and a trailing dot all give `""`). -/
def nameSuffix (name : String) : String :=
  match lastIdxOf '.' name.data with
  | some i =>
      if 0 < i ∧ i < name.data.length - 1 then ⟨name.data.drop i⟩ else ""
  | none => ""

/-- The filesystem visible to one indexing run: the set of existing
directories (as component lists from the root) and the files they hold. -/
structure FileSystem where
  dirs : List (List String)
  files : List Fyle
  deriving Repr

/-! ## Text extraction (`DocumentIndexer._extract_text`, `_extract_csv_text`) -/

/-- `BeautifulSoup.get_text(separator=" ", strip=True)`: every text segment is
stripped, segments that strip to empty are dropped, and the survivors are
joined with single spaces.  Whitespace interior to one segment is untouched. -/
def soupGetText (segments : List String) : String :=
  String.intercalate " " ((segments.map pyStrip).filter (fun s => ¬ s = ""))

/-- `DocumentIndexer._extract_csv_text`:
`' '.join(df.astype(str).values.flatten())` — the data cells (`df.values`
holds the rows only, not the column labels), row-major, space-joined. -/
def extractCsvText (rows : List (List String)) : String :=
  String.intercalate " " rows.flatten

/-- `DocumentIndexer._extract_text`: dispatch on the file's suffix; `.html`
is read and parsed by BeautifulSoup, `.csv` by `_extract_csv_text`, any other
suffix raises `ValueError`.  An unreadable file raises `IOError`.
(A readable file whose content constructor does not match the parser its
suffix dispatches to cannot arise; such values are mapped to `ValueError`.) -/
def extractText (f : Fyle) : Except PyErr String :=
  if nameSuffix f.base = ".html" then
    match f.content with
    | .markup segments => .ok (soupGetText segments)
    | .table _ _ => .error .valueError
    | .unreadable => .error .ioError
  else if nameSuffix f.base = ".csv" then
    match f.content with
    | .table _ rows => .ok (extractCsvText rows)
    | .markup _ => .error .valueError
    | .unreadable => .error .ioError
  else
    .error .valueError

/-! ## File discovery (`DocumentIndexer._find_files`) -/

/-- `u` is an initial run of `v` (used for "file lies under the root"). -/
def dirUnder : List String → List String → Bool
  | [], _ => true
  | _ :: _, [] => false
  | a :: as, b :: bs => a = b && dirUnder as bs

/-- `directory.rglob(f"*{ext}")` membership test for one file against the
configured extensions `{'.html', '.csv'}`: the file lies under the root and
its name matches one of the glob patterns `*.html` / `*.csv`. -/
def matchesFind (root : List String) (f : Fyle) : Bool :=
  dirUnder root f.dir && (strEndsWith f.base ".html" || strEndsWith f.base ".csv")

/-- The `set` built by `_find_files` deduplicates by path (`seen` holds the
paths already kept; only the first file with a given path is kept). -/
def dedupByPath (seen : List String) : List Fyle → List Fyle
  | [] => []
  | f :: rest =>
      if f.pathStr ∈ seen then dedupByPath seen rest
      else f :: dedupByPath (f.pathStr :: seen) rest

/-- Python string comparison (lexicographic on code points). -/
def charListLe : List Char → List Char → Bool
  | [], _ => true
  | _ :: _, [] => false
  | a :: as, b :: bs =>
      if a.val < b.val then true
      else if a.val = b.val then charListLe as bs
      else false

def insertByPath (f : Fyle) : List Fyle → List Fyle
  | [] => [f]
  | g :: rest =>
      if charListLe f.pathStr.data g.pathStr.data then f :: g :: rest
      else g :: insertByPath f rest

/-- `sorted(files)`: ascending by path. -/
def sortByPath : List Fyle → List Fyle
  | [] => []
  | f :: rest => insertByPath f (sortByPath rest)

/-- `DocumentIndexer._find_files` followed by `sorted(...)` in
`index_directory`.  `Path.rglob` checks `is_dir()` on the root before
walking and yields nothing when the root does not exist (pathlib's
`_Selector.select_from` returns an empty iterator then), so a missing
root produces the empty set rather than an error. -/
def discover (fs : FileSystem) (root : List String) : List Fyle :=
  if root ∈ fs.dirs then
    sortByPath (dedupByPath [] (fs.files.filter (matchesFind root)))
  else
    []

/-! ## Vector store state (the `documents` collection) -/

/-- The metadata dict built in the insert loop:
`{"source": str(file_path), "file_type": file_path.suffix[1:], "filename": file_path.name}`. -/
structure Metadata where
  source : String
  file_type : String
  filename : String
  deriving Repr, DecidableEq

/-- One persisted record of the collection: id, document text, metadata. -/
structure StoredDoc where
  id : String
  text : String
  metadata : Metadata
  deriving Repr, DecidableEq

/-- The collection's contents, in insertion order. -/
structure StoreState where
  docs : List StoredDoc
  deriving Repr, DecidableEq

def StoreState.ids (st : StoreState) : List String :=
  st.docs.map StoredDoc.id

/-- `collection.add` with a single record: a record whose id is already
present is not stored again (the store keeps the existing record). -/
def StoreState.add (st : StoreState) (d : StoredDoc) : StoreState :=
  if d.id ∈ st.ids then st else ⟨st.docs ++ [d]⟩

/-- `DocumentIndexer.get_indexed_docs`: `collection.get()["ids"]` behind a
`try`; a `chromadb` error is caught, logged, and replaced by the empty set. -/
def getIndexedDocs (raw : Except StoreErr (List String)) : List String :=
  match raw with
  | .ok ids => ids
  | .error _ => []

/-! ## The indexing run (`DocumentIndexer.index_directory`) -/

/-- The id `f"doc_{file_path.name}"` derived for a file. -/
def docId (f : Fyle) : String := "doc_" ++ f.base

/-- One observable event of the insert loop, in the order it is logged:
a file skipped by the pre-filter, a successful `collection.add` (recording
whether the id it received was already present in the collection at the
call), a per-file extraction/read failure (caught and logged with the
path), or a `collection.add` that the store failed (caught and logged). -/
inductive Event where
  | skipped (id : String)
  | added (id : String) (alreadyPresent : Bool)
  | extractFailed (path : String)
  | addFailed (path : String) (id : String) (alreadyPresent : Bool)
  deriving Repr, DecidableEq

/-- Prepend a logged event to the outcome of the rest of the loop. -/
def consEvent (e : Event) (p : StoreState × List Event) : StoreState × List Event :=
  (p.1, e :: p.2)

/-- The `for file_path in sorted(files)` loop of `index_directory`.
`indexed` is the snapshot `indexed_docs` taken once before the loop;
`addOk f` says whether the store accepts the `collection.add` call for
file `f` (a `false` models a `chromadb` error raised by that call, which
the loop catches and logs before moving to the next file). -/
def processFiles (addOk : Fyle → Bool) (indexed : List String) :
    List Fyle → StoreState → StoreState × List Event
  | [], st => (st, [])
  | f :: rest, st =>
      if docId f ∈ indexed then
        consEvent (.skipped (docId f)) (processFiles addOk indexed rest st)
      else
        match extractText f with
        | .error _ =>
            consEvent (.extractFailed f.pathStr) (processFiles addOk indexed rest st)
        | .ok text =>
            if addOk f then
              consEvent (.added (docId f) (decide (docId f ∈ st.ids)))
                (processFiles addOk indexed rest
                  (st.add ⟨docId f, text,
                    ⟨f.pathStr, (nameSuffix f.base).drop 1, f.base⟩⟩))
            else
              consEvent (.addFailed f.pathStr (docId f) (decide (docId f ∈ st.ids)))
                (processFiles addOk indexed rest st)

/-- `DocumentIndexer.index_directory`: take the `get_indexed_docs` snapshot
(`listFails` models a store failure of that call, replaced by the empty
set), discover and sort the files, and run the insert loop.  Discovery
cannot raise (see `discover`), and every per-file exception is caught
inside the loop, so the run always completes and returns the final
collection state together with the logged events. -/
def indexDirectory (listFails : Bool) (addOk : Fyle → Bool)
    (fs : FileSystem) (root : List String) (st : StoreState) :
    StoreState × List Event :=
  let indexed := getIndexedDocs
    (if listFails then .error .storeError else .ok st.ids)
  processFiles addOk indexed (discover fs root) st

/-! ## Store query and `QueryEngine.search` -/

/-- The dict returned by `collection.query` (and by
`DocumentIndexer.search`): outer lists indexed by query text — the code
always passes exactly one query text — inner lists aligned by rank. -/
structure StoreReply where
  documents : List (List String)
  metadatas : List (List Metadata)
  distances : List (List ℚ)
  deriving Repr, DecidableEq

/-- `DocumentIndexer.search`: `collection.query` behind a `try`; a
`chromadb` error is caught, logged, and replaced by
`{"documents": [], "metadatas": [], "distances": []}`. -/
def indexerSearch (raw : Except StoreErr StoreReply) : StoreReply :=
  match raw with
  | .ok r => r
  | .error _ => ⟨[], [], []⟩

/-- The `SearchResult` dataclass of `query_rag.py`. -/
structure SearchResult where
  source : String
  content : String
  metadata : Metadata
  score : ℚ
  deriving Repr, DecidableEq

/-- The `SearchResult(...)` built for one `(doc, metadata, distance)` triple:
`content=doc[:200]`, `score=1.0 - distance`, metadata passed through. -/
def mkSearchResult (doc : String) (md : Metadata) (distance : ℚ) : SearchResult :=
  ⟨md.source, pyTake doc 200, md, 1 - distance⟩

/-- `zip(xs, ys, zs)` mapped through `f`: stops at the shortest list. -/
def zip3With (f : α → β → γ → δ) : List α → List β → List γ → List δ
  | a :: as, b :: bs, c :: cs => f a b c :: zip3With f as bs cs
  | _, _, _ => []

/-- `QueryEngine.search` applied to the store reply: if `results["documents"]`
is empty (falsy) the loop body is skipped and the empty list is returned;
otherwise the code indexes `documents[0]`, `metadatas[0]`, `distances[0]`
(an `IndexError` if either of the latter outer lists is empty — this never
happens for actual store replies) and zips them into `SearchResult`s. -/
def queryEngineSearch (results : StoreReply) : Except PyErr (List SearchResult) :=
  match results.documents with
  | [] => .ok []
  | docs0 :: _ =>
      match results.metadatas, results.distances with
      | mds0 :: _, ds0 :: _ => .ok (zip3With mkSearchResult docs0 mds0 ds0)
      | _, _ => .error .indexError

/-- The `alreadyPresent` flag recorded with an insert call, if any. -/
def Event.callPresent : Event → Option Bool
  | .added _ b => some b
  | .addFailed _ _ b => some b
  | _ => none

/-- A directory of five files, one of them (`b.html`) unreadable: the
partial-failure scenario of the spec's testable properties. -/
def fiveFileSystem : FileSystem :=
  ⟨[["d"]],
   [⟨["d"], "a.html", .markup ["one"]⟩,
    ⟨["d"], "b.html", .unreadable⟩,
    ⟨["d"], "c.csv", .table ["h"] [["v"]]⟩,
    ⟨["d"], "e.html", .markup ["two"]⟩,
    ⟨["d"], "f.csv", .table ["g"] [["w"]]⟩]⟩

/-! ## Lemmas about the store and the insert loop -/

theorem StoreState.ids_add (st : StoreState) (d : StoredDoc) :
    (st.add d).ids = if d.id ∈ st.ids then st.ids else st.ids ++ [d.id] := by
  unfold StoreState.add
  split <;> simp [StoreState.ids]

theorem StoreState.mem_ids_add_self (st : StoreState) (d : StoredDoc) :
    d.id ∈ (st.add d).ids := by
  rw [StoreState.ids_add]
  split <;> simp_all

theorem StoreState.ids_subset_add (st : StoreState) (d : StoredDoc) :
    st.ids ⊆ (st.add d).ids := by
  rw [StoreState.ids_add]
  split <;> simp [List.subset_append_left]

/-- The collection only grows during the loop. -/
theorem ids_subset_processFiles (addOk : Fyle → Bool) (indexed : List String)
    (files : List Fyle) (st : StoreState) :
    st.ids ⊆ (processFiles addOk indexed files st).1.ids := by
  induction files generalizing st with
  | nil => simp [processFiles]
  | cons f rest ih =>
      simp only [processFiles]
      split
      · exact ih st
      · split
        · exact ih st
        · split
          · exact (StoreState.ids_subset_add st _).trans (ih _)
          · exact ih st

/-- Every file that the pre-filter does not skip, that extracts, and whose
insert the store accepts, ends up in the collection (or was in the snapshot). -/
theorem docId_mem_of_processFiles_ok (addOk : Fyle → Bool) (indexed : List String)
    (files : List Fyle) (st : StoreState) (f : Fyle) (hf : f ∈ files)
    (hext : (extractText f).isOk = true) (hadd : addOk f = true) :
    docId f ∈ indexed ∨ docId f ∈ (processFiles addOk indexed files st).1.ids := by
  induction files generalizing st with
  | nil => cases hf
  | cons g rest ih =>
      rcases List.mem_cons.mp hf with rfl | hmem
      · by_cases hidx : docId f ∈ indexed
        · exact Or.inl hidx
        · right
          rcases hok : extractText f with e | text
          · rw [hok] at hext; cases hext
          · simp only [processFiles, hidx, if_false, hok, hadd, if_true, consEvent]
            exact ids_subset_processFiles _ _ _ _ (StoreState.mem_ids_add_self st _)
      · simp only [processFiles]
        split
        · exact ih st hmem
        · split
          · exact ih st hmem
          · split
            · exact ih _ hmem
            · exact ih st hmem

/-- If every file of the list is skipped or fails (extraction or store),
the loop changes nothing and performs no successful insert. -/
theorem processFiles_noop (addOk : Fyle → Bool) (indexed : List String)
    (files : List Fyle) (st : StoreState)
    (h : ∀ f ∈ files, docId f ∈ indexed ∨ (extractText f).isOk = false ∨ addOk f = false) :
    (processFiles addOk indexed files st).1 = st ∧
      ∀ e ∈ (processFiles addOk indexed files st).2, ∀ id b, e ≠ Event.added id b := by
  induction files generalizing st with
  | nil => simp [processFiles]
  | cons f rest ih =>
      have hf := h f (List.mem_cons_self f rest)
      have hrest : ∀ g ∈ rest, docId g ∈ indexed ∨ (extractText g).isOk = false ∨ addOk g = false :=
        fun g hg => h g (List.mem_cons_of_mem f hg)
      simp only [processFiles]
      by_cases hidx : docId f ∈ indexed
      · simp only [hidx, if_true, consEvent]
        refine ⟨(ih st hrest).1, ?_⟩
        intro e he id b
        rcases List.mem_cons.mp he with rfl | he'
        · simp
        · exact (ih st hrest).2 e he' id b
      · simp only [hidx, if_false]
        rcases hok : extractText f with e | text
        · simp only [consEvent]
          refine ⟨(ih st hrest).1, ?_⟩
          intro ev hev id b
          rcases List.mem_cons.mp hev with rfl | hev'
          · simp
          · exact (ih st hrest).2 ev hev' id b
        · rcases hf with hidx' | hext | hadd
          · exact absurd hidx' hidx
          · rw [hok] at hext; cases hext
          · simp only [hadd, if_false, consEvent]
            refine ⟨(ih st hrest).1, ?_⟩
            intro ev hev id b
            rcases List.mem_cons.mp hev with rfl | hev'
            · simp
            · exact (ih st hrest).2 ev hev' id b

/-- A file whose derived id is in the snapshot is skipped (a `skipped`
event is logged for it, whatever its content). -/
theorem skipped_mem_processFiles (addOk : Fyle → Bool) (indexed : List String)
    (files : List Fyle) (st : StoreState) (f : Fyle) (hf : f ∈ files)
    (hidx : docId f ∈ indexed) :
    Event.skipped (docId f) ∈ (processFiles addOk indexed files st).2 := by
  induction files generalizing st with
  | nil => cases hf
  | cons g rest ih =>
      rcases List.mem_cons.mp hf with rfl | hmem
      · simp [processFiles, hidx, consEvent]
      · simp only [processFiles]
        split
        · exact List.mem_cons_of_mem _ (ih st hmem)
        · split
          · exact List.mem_cons_of_mem _ (ih st hmem)
          · split
            · exact List.mem_cons_of_mem _ (ih _ hmem)
            · exact List.mem_cons_of_mem _ (ih st hmem)

/-- A non-skipped file whose extraction fails is logged with its path and
does not abort the loop. -/
theorem extractFailed_mem_processFiles (addOk : Fyle → Bool) (indexed : List String)
    (files : List Fyle) (st : StoreState) (f : Fyle) (hf : f ∈ files)
    (hidx : docId f ∉ indexed) (hext : (extractText f).isOk = false) :
    Event.extractFailed f.pathStr ∈ (processFiles addOk indexed files st).2 := by
  induction files generalizing st with
  | nil => cases hf
  | cons g rest ih =>
      rcases List.mem_cons.mp hf with rfl | hmem
      · rcases hok : extractText f with e | text
        · simp [processFiles, hidx, hok, consEvent]
        · rw [hok] at hext; cases hext
      · simp only [processFiles]
        split
        · exact List.mem_cons_of_mem _ (ih st hmem)
        · split
          · exact List.mem_cons_of_mem _ (ih st hmem)
          · split
            · exact List.mem_cons_of_mem _ (ih _ hmem)
            · exact List.mem_cons_of_mem _ (ih st hmem)

/-- A non-skipped file that extracts but whose `collection.add` the store
rejects is logged with its path and does not abort the loop. -/
theorem addFailed_mem_processFiles (addOk : Fyle → Bool) (indexed : List String)
    (files : List Fyle) (st : StoreState) (f : Fyle) (hf : f ∈ files)
    (hidx : docId f ∉ indexed) (hext : (extractText f).isOk = true)
    (hadd : addOk f = false) :
    ∃ b, Event.addFailed f.pathStr (docId f) b ∈ (processFiles addOk indexed files st).2 := by
  induction files generalizing st with
  | nil => cases hf
  | cons g rest ih =>
      rcases List.mem_cons.mp hf with rfl | hmem
      · rcases hok : extractText f with e | text
        · rw [hok] at hext; cases hext
        · exact ⟨decide (docId f ∈ st.ids), by simp [processFiles, hidx, hok, hadd, consEvent]⟩
      · simp only [processFiles]
        split
        · exact (ih st hmem).imp (fun b => List.mem_cons_of_mem _)
        · split
          · exact (ih st hmem).imp (fun b => List.mem_cons_of_mem _)
          · split
            · exact (ih _ hmem).imp (fun b => List.mem_cons_of_mem _)
            · exact (ih st hmem).imp (fun b => List.mem_cons_of_mem _)

/-- If the derived ids of the files are pairwise distinct and the snapshot
covers the collection, every `collection.add` call of the loop receives an
id that is not yet present in the collection at the moment of the call. -/
theorem processFiles_calls_fresh (addOk : Fyle → Bool) (indexed : List String)
    (files : List Fyle) (st : StoreState)
    (hcover : ∀ f ∈ files, docId f ∉ indexed → docId f ∉ st.ids)
    (hdist : files.Pairwise (fun f g => docId f ≠ docId g)) :
    ∀ e ∈ (processFiles addOk indexed files st).2, e.callPresent ≠ some true := by
  induction files generalizing st with
  | nil => simp [processFiles]
  | cons f rest ih =>
      have hdist' := (List.pairwise_cons.mp hdist).2
      have hhead := (List.pairwise_cons.mp hdist).1
      have hcover' : ∀ g ∈ rest, docId g ∉ indexed → docId g ∉ st.ids :=
        fun g hg => hcover g (List.mem_cons_of_mem f hg)
      simp only [processFiles]
      by_cases hidx : docId f ∈ indexed
      · simp only [hidx, if_true, consEvent]
        intro e he
        rcases List.mem_cons.mp he with rfl | he'
        · simp [Event.callPresent]
        · exact ih st hcover' hdist' e he'
      · have hfresh : docId f ∉ st.ids := hcover f (List.mem_cons_self f rest) hidx
        simp only [hidx, if_false]
        rcases hok : extractText f with e0 | text
        · simp only [consEvent]
          intro e he
          rcases List.mem_cons.mp he with rfl | he'
          · simp [Event.callPresent]
          · exact ih st hcover' hdist' e he'
        · by_cases hadd : addOk f = true
          · simp only [hadd, if_true, consEvent]
            intro e he
            rcases List.mem_cons.mp he with rfl | he'
            · simp [Event.callPresent, hfresh]
            · refine ih _ ?_ hdist' e he'
              intro g hg hgidx
              rw [StoreState.ids_add]
              simp only [hfresh, if_false]
              intro hmem
              rcases List.mem_append.mp hmem with h1 | h2
              · exact hcover' g hg hgidx h1
              · exact hhead g hg (List.mem_singleton.mp h2).symm
          · simp only [hadd, if_false, consEvent]
            intro e he
            rcases List.mem_cons.mp he with rfl | he'
            · simp [Event.callPresent, hfresh]
            · exact ih st hcover' hdist' e he'

/-! ## Lemmas about `zip3With` and `QueryEngine.search` -/

theorem length_zip3With (f : α → β → γ → δ) :
    ∀ (as : List α) (bs : List β) (cs : List γ),
      (zip3With f as bs cs).length = min as.length (min bs.length cs.length)
  | [], _, _ => by simp [zip3With]
  | _ :: _, [], _ => by simp [zip3With]
  | _ :: _, _ :: _, [] => by simp [zip3With]
  | a :: as, b :: bs, c :: cs => by
      simp only [zip3With, List.length_cons, length_zip3With f as bs cs]
      omega

theorem mem_zip3With (f : α → β → γ → δ) :
    ∀ (as : List α) (bs : List β) (cs : List γ) (x : δ),
      x ∈ zip3With f as bs cs →
        ∃ a b c, a ∈ as ∧ b ∈ bs ∧ c ∈ cs ∧ x = f a b c
  | [], _, _, _, h => by cases h
  | _ :: _, [], _, _, h => by cases h
  | _ :: _, _ :: _, [], _, h => by cases h
  | a :: as, b :: bs, c :: cs, x, h => by
      rcases List.mem_cons.mp h with rfl | h'
      · exact ⟨a, b, c, List.mem_cons_self _ _, List.mem_cons_self _ _,
          List.mem_cons_self _ _, rfl⟩
      · obtain ⟨a', b', c', ha, hb, hc, hx⟩ := mem_zip3With f as bs cs x h'
        exact ⟨a', b', c', List.mem_cons_of_mem _ ha, List.mem_cons_of_mem _ hb,
          List.mem_cons_of_mem _ hc, hx⟩

/-- With aligned lists, the scores of the built `SearchResult`s are exactly
`1 - distance`, in the store's order. -/
theorem map_score_zip3With :
    ∀ (docs : List String) (mds : List Metadata) (ds : List ℚ),
      docs.length = ds.length → mds.length = ds.length →
        (zip3With mkSearchResult docs mds ds).map SearchResult.score =
          ds.map (fun d => 1 - d)
  | [], [], [], _, _ => rfl
  | [], _, _ :: _, h, _ => by cases h
  | _ :: _, _, [], h, _ => by cases h
  | _ :: _, [], _ :: _, _, h => by cases h
  | d :: docs, m :: mds, q :: ds, h1, h2 => by
      simp only [zip3With, List.map_cons, mkSearchResult]
      exact congrArg _ (map_score_zip3With docs mds ds
        (by simpa using h1) (by simpa using h2))

/-! ## Claim theorems -/

/-- Claim C1: running `index_directory` a second time on a directory whose
files are unchanged inserts zero new documents — the collection after the
second run equals (hence has the same id set as) the collection after the
first run, no successful insert happens in the second run, every discovered
file whose derived id is listed after the first run is skipped, and the
derived id depends only on the file's base name (not on its content). -/
theorem indexDirectory_idempotent (addOk : Fyle → Bool) (fs : FileSystem)
    (root : List String) (st : StoreState) :
    (indexDirectory false addOk fs root (indexDirectory false addOk fs root st).1).1 =
        (indexDirectory false addOk fs root st).1 ∧
    (∀ e ∈ (indexDirectory false addOk fs root (indexDirectory false addOk fs root st).1).2,
        ∀ id b, e ≠ Event.added id b) ∧
    (∀ f ∈ discover fs root,
        docId f ∈ (indexDirectory false addOk fs root st).1.ids →
          Event.skipped (docId f) ∈
            (indexDirectory false addOk fs root (indexDirectory false addOk fs root st).1).2) ∧
    (∀ f g : Fyle, f.base = g.base → docId f = docId g) := by
  have hsub : st.ids ⊆ (indexDirectory false addOk fs root st).1.ids :=
    ids_subset_processFiles addOk st.ids (discover fs root) st
  have hcond : ∀ f ∈ discover fs root,
      docId f ∈ (indexDirectory false addOk fs root st).1.ids ∨
        (extractText f).isOk = false ∨ addOk f = false := by
    intro f hf
    by_cases hext : (extractText f).isOk = true
    · by_cases hadd : addOk f = true
      · rcases docId_mem_of_processFiles_ok addOk st.ids (discover fs root) st f hf
            hext hadd with h | h
        · exact Or.inl (hsub h)
        · exact Or.inl h
      · exact Or.inr (Or.inr (by simpa using hadd))
    · exact Or.inr (Or.inl (by simpa using hext))
  have hnoop := processFiles_noop addOk (indexDirectory false addOk fs root st).1.ids
      (discover fs root) (indexDirectory false addOk fs root st).1 hcond
  refine ⟨hnoop.1, hnoop.2, ?_, ?_⟩
  · intro f hf hid
    exact skipped_mem_processFiles addOk _ (discover fs root) _ f hf hid
  · intro f g hbase
    simp [docId, hbase]

/-- Claim C2, counterexample: the CSV with header `a,b` and data row `1,2`
extracts to exactly `"1 2"` — the header row is not part of the flattened
values — and no string containing `"a b 1 2"` equals `"1 2"`, so the
extraction does not contain `"a b 1 2"` as the claim states. -/
theorem csv_extraction_counterexample :
    extractText ⟨["data"], "table.csv", .table ["a", "b"] [["1", "2"]]⟩ = .ok "1 2" ∧
    ∀ pre post : String, ¬ (pre ++ "a b 1 2" ++ post = "1 2") := by
  refine ⟨rfl, ?_⟩
  intro pre post h
  have hlen := congrArg String.length h
  rw [String.length_append, String.length_append] at hlen
  have h1 : ("a b 1 2" : String).length = 7 := rfl
  have h2 : ("1 2" : String).length = 3 := rfl
  omega

/-- Claim C2 (amended): for every CSV file, tabular extraction returns a
single space-joined string of all data-row cell values (converted to text)
in row-major order, the header row excluded; in particular the header names
never appear among the joined cells. -/
theorem csv_extraction_data_cells (f : Fyle) (header : List String)
    (rows : List (List String)) (hsuf : nameSuffix f.base = ".csv")
    (hc : f.content = .table header rows) :
    extractText f = .ok (String.intercalate " " rows.flatten) := by
  have hne : ¬ nameSuffix f.base = ".html" := by rw [hsuf]; decide
  simp [extractText, hne, hsuf, hc, extractCsvText]

/-- Witness for C2 (amended) at the header `a,b`, row `1,2` table. -/
theorem csv_extraction_data_cells_witness :
    nameSuffix "table.csv" = ".csv" ∧
    extractText ⟨["data"], "table.csv", .table ["a", "b"] [["1", "2"]]⟩ =
      .ok (String.intercalate " " [["1", "2"]].flatten) :=
  ⟨rfl, csv_extraction_data_cells ⟨["data"], "table.csv", .table ["a", "b"] [["1", "2"]]⟩
    ["a", "b"] [["1", "2"]] rfl rfl⟩

/-- Claim C3, counterexample: with a filesystem in which the root `data`
does not exist (but a file under that path spuriously does),
`index_directory` completes normally — it returns the unchanged collection
and an empty event log — instead of failing with a `DirectoryNotFound`
error: `Path.rglob` yields nothing for a non-existent root. -/
theorem missing_root_counterexample :
    indexDirectory false (fun _ => true)
        ⟨[], [⟨["data"], "kept.html", .markup ["hello"]⟩]⟩ ["data"] ⟨[]⟩ =
      (⟨[]⟩, []) ∧
    discover ⟨[], [⟨["data"], "kept.html", .markup ["hello"]⟩]⟩ ["data"] = [] :=
  ⟨rfl, rfl⟩

/-- Claim C3 (amended): if the root directory passed to `index_directory`
does not exist, discovery returns the empty set (pathlib's `rglob` checks
`is_dir()` and yields nothing) and `index_directory` completes normally
without inserting anything or raising. -/
theorem missing_root_noop (listFails : Bool) (addOk : Fyle → Bool)
    (fs : FileSystem) (root : List String) (st : StoreState)
    (h : ¬ root ∈ fs.dirs) :
    discover fs root = [] ∧
      indexDirectory listFails addOk fs root st = (st, []) := by
  have hd : discover fs root = [] := by simp [discover, h]
  refine ⟨hd, ?_⟩
  simp [indexDirectory, hd, processFiles]

/-- Witness for C3 (amended): a concrete filesystem with no directories. -/
theorem missing_root_noop_witness :
    discover ⟨[], [⟨["data"], "kept.html", .markup ["hello"]⟩]⟩ ["data"] = [] ∧
      indexDirectory true (fun _ => false)
          ⟨[], [⟨["data"], "kept.html", .markup ["hello"]⟩]⟩ ["data"] ⟨[]⟩ =
        (⟨[]⟩, []) :=
  missing_root_noop true (fun _ => false)
    ⟨[], [⟨["data"], "kept.html", .markup ["hello"]⟩]⟩ ["data"] ⟨[]⟩ (by decide)

/-- Claim C4, counterexample: the markup document `<p>Hello  World</p>`
parses to the single text segment `"Hello  World"` (two interior spaces),
and extraction returns `"Hello  World"` unchanged — `get_text` joins
*segments* with single spaces but does not collapse whitespace interior to
one segment — which differs from the claimed `"Hello World"`. -/
theorem markup_extraction_counterexample :
    extractText ⟨["site"], "page.html", .markup ["Hello  World"]⟩ =
      .ok "Hello  World" ∧
    ("Hello  World" : String) ≠ "Hello World" :=
  ⟨rfl, by decide⟩

/-- Claim C4 (amended): for every HTML file, markup extraction strips each
text segment, drops segments that are whitespace-only, and joins the rest
with single spaces; whitespace interior to a segment is preserved, so
`<p>Hello  World</p>` extracts to `"Hello  World"`. -/
theorem markup_extraction_strip_join (f : Fyle) (segments : List String)
    (hsuf : nameSuffix f.base = ".html") (hc : f.content = .markup segments) :
    extractText f = .ok (String.intercalate " "
        ((segments.map pyStrip).filter (fun s => ¬ s = ""))) ∧
    extractText ⟨["site"], "page.html", .markup ["Hello  World"]⟩ =
      .ok "Hello  World" := by
  constructor
  · simp [extractText, hsuf, hc, soupGetText]
  · rfl

/-- Witness for C4 (amended): segments with leading/trailing whitespace and
a whitespace-only segment. -/
theorem markup_extraction_strip_join_witness :
    extractText ⟨["site"], "page.html",
        .markup ["  Hello ", "   ", " World  "]⟩ =
      .ok (String.intercalate " "
        (([("  Hello " : String), "   ", " World  "].map pyStrip).filter
          (fun s => ¬ s = ""))) ∧
    extractText ⟨["site"], "page.html", .markup ["Hello  World"]⟩ =
      .ok "Hello  World" :=
  markup_extraction_strip_join
    ⟨["site"], "page.html", .markup ["  Hello ", "   ", " World  "]⟩
    ["  Hello ", "   ", " World  "] rfl rfl

/-- Claim C5, counterexample: two discovered files in different
subdirectories share the base name `notes.html`; both derive the id
`doc_notes.html`, the start-of-run pre-filter catches neither, and the
second `collection.add` call receives an id that is already present in the
collection (the event's flag records presence at the call). -/
theorem duplicate_basename_insert_counterexample :
    (indexDirectory false (fun _ => true)
        ⟨[["data"], ["data", "a"], ["data", "b"]],
         [⟨["data", "a"], "notes.html", .markup ["alpha"]⟩,
          ⟨["data", "b"], "notes.html", .markup ["beta"]⟩]⟩
        ["data"] ⟨[]⟩).2 =
      [Event.added "doc_notes.html" false, Event.added "doc_notes.html" true] ∧
    Event.added "doc_notes.html" true ∈
      (indexDirectory false (fun _ => true)
        ⟨[["data"], ["data", "a"], ["data", "b"]],
         [⟨["data", "a"], "notes.html", .markup ["alpha"]⟩,
          ⟨["data", "b"], "notes.html", .markup ["beta"]⟩]⟩
        ["data"] ⟨[]⟩).2 := by
  have h : (indexDirectory false (fun _ => true)
        ⟨[["data"], ["data", "a"], ["data", "b"]],
         [⟨["data", "a"], "notes.html", .markup ["alpha"]⟩,
          ⟨["data", "b"], "notes.html", .markup ["beta"]⟩]⟩
        ["data"] ⟨[]⟩).2 =
      [Event.added "doc_notes.html" false, Event.added "doc_notes.html" true] := rfl
  refine ⟨h, ?_⟩
  rw [h]
  exact List.mem_cons_of_mem _ (List.mem_singleton.mpr rfl)

/-- Claim C5 (amended): the pre-filter only guarantees freshness against the
ids indexed before the run started; when the derived ids of the discovered
files are pairwise distinct (in particular, no two files share a base
filename), every `collection.add` call of the run does receive an id that
is not yet present in the collection. -/
theorem insert_calls_fresh_of_distinct_ids (addOk : Fyle → Bool)
    (fs : FileSystem) (root : List String) (st : StoreState)
    (hdist : (discover fs root).Pairwise (fun f g => docId f ≠ docId g)) :
    ∀ e ∈ (indexDirectory false addOk fs root st).2,
      e.callPresent ≠ some true := by
  refine processFiles_calls_fresh addOk st.ids (discover fs root) st ?_ hdist
  intro f _ hni
  exact hni

/-- Witness for C5 (amended): two files with distinct base names — both
logged insert calls received fresh ids. -/
theorem insert_calls_fresh_of_distinct_ids_witness :
    (indexDirectory false (fun _ => true)
        ⟨[["data"]],
         [⟨["data"], "a.html", .markup ["alpha"]⟩,
          ⟨["data"], "b.csv", .table ["h"] [["v"]]⟩]⟩
        ["data"] ⟨[]⟩).2 =
      [Event.added "doc_a.html" false, Event.added "doc_b.csv" false] ∧
    (Event.added "doc_a.html" false).callPresent ≠ some true ∧
    (Event.added "doc_b.csv" false).callPresent ≠ some true :=
  ⟨rfl,
   insert_calls_fresh_of_distinct_ids (fun _ => true)
     ⟨[["data"]],
      [⟨["data"], "a.html", .markup ["alpha"]⟩,
       ⟨["data"], "b.csv", .table ["h"] [["v"]]⟩]⟩
     ["data"] ⟨[]⟩ (by decide) (Event.added "doc_a.html" false) (by decide),
   insert_calls_fresh_of_distinct_ids (fun _ => true)
     ⟨[["data"]],
      [⟨["data"], "a.html", .markup ["alpha"]⟩,
       ⟨["data"], "b.csv", .table ["h"] [["v"]]⟩]⟩
     ["data"] ⟨[]⟩ (by decide) (Event.added "doc_b.csv" false) (by decide)⟩

/-- Claim C6: `QueryEngine.search` returns the store's results with
`score = 1 - distance`, preserving the store's order position by position;
when the store's distances are ascending, the returned scores are
descending. -/
theorem search_ranking (docs : List String) (mds : List Metadata)
    (ds : List ℚ) (h1 : docs.length = ds.length) (h2 : mds.length = ds.length)
    (hsorted : ds.Sorted (· ≤ ·)) :
    queryEngineSearch ⟨[docs], [mds], [ds]⟩ =
        .ok (zip3With mkSearchResult docs mds ds) ∧
    (zip3With mkSearchResult docs mds ds).map SearchResult.score =
        ds.map (fun d => 1 - d) ∧
    ((zip3With mkSearchResult docs mds ds).map SearchResult.score).Sorted (· ≥ ·) := by
  refine ⟨rfl, map_score_zip3With docs mds ds h1 h2, ?_⟩
  rw [map_score_zip3With docs mds ds h1 h2]
  exact List.Pairwise.map _ (fun a b hab => sub_le_sub_left hab 1) hsorted

/-- Witness for C6: three documents at distances 0.1, 0.5, 0.9 come back in
that order with scores 0.9, 0.5, 0.1. -/
theorem search_ranking_witness :
    queryEngineSearch ⟨[["d1", "d2", "d3"]],
        [[⟨"s1", "html", "f1"⟩, ⟨"s2", "html", "f2"⟩, ⟨"s3", "csv", "f3"⟩]],
        [[1/10, 1/2, 9/10]]⟩ =
      .ok (zip3With mkSearchResult ["d1", "d2", "d3"]
        [⟨"s1", "html", "f1"⟩, ⟨"s2", "html", "f2"⟩, ⟨"s3", "csv", "f3"⟩]
        [1/10, 1/2, 9/10]) ∧
    (zip3With mkSearchResult ["d1", "d2", "d3"]
        [⟨"s1", "html", "f1"⟩, ⟨"s2", "html", "f2"⟩, ⟨"s3", "csv", "f3"⟩]
        [1/10, 1/2, 9/10]).map SearchResult.score = [9/10, 1/2, 1/10] ∧
    ([(9 : ℚ)/10, 1/2, 1/10]).Sorted (· ≥ ·) := by
  have h := search_ranking ["d1", "d2", "d3"]
    [⟨"s1", "html", "f1"⟩, ⟨"s2", "html", "f2"⟩, ⟨"s3", "csv", "f3"⟩]
    [1/10, 1/2, 9/10] rfl rfl (by norm_num [List.sorted_cons])
  have hmap : (zip3With mkSearchResult ["d1", "d2", "d3"]
      [⟨"s1", "html", "f1"⟩, ⟨"s2", "html", "f2"⟩, ⟨"s3", "csv", "f3"⟩]
      [1/10, 1/2, 9/10]).map SearchResult.score = [9/10, 1/2, 1/10] := by
    rw [h.2.1]
    norm_num
  exact ⟨h.1, hmap, hmap ▸ h.2.2⟩

/-- Claim C7: during the insert loop every per-file failure is caught and
iteration continues — every discovered file that extracts and whose insert
the store accepts ends up in the collection, whatever happens to the other
files, and a non-skipped file whose extraction or read fails is logged by
path without aborting the run (the run always returns). -/
theorem per_file_failure_isolated (addOk : Fyle → Bool) (fs : FileSystem)
    (root : List String) (st : StoreState) (g : Fyle)
    (hg : g ∈ discover fs root) :
    ((extractText g).isOk = true → addOk g = true →
        docId g ∈ (indexDirectory false addOk fs root st).1.ids) ∧
    ((extractText g).isOk = false → docId g ∉ st.ids →
        Event.extractFailed g.pathStr ∈
          (indexDirectory false addOk fs root st).2) := by
  constructor
  · intro hext hadd
    rcases docId_mem_of_processFiles_ok addOk st.ids (discover fs root) st g hg
        hext hadd with h | h
    · exact ids_subset_processFiles addOk st.ids (discover fs root) st h
    · exact h
  · intro hext hni
    exact extractFailed_mem_processFiles addOk st.ids (discover fs root) st g hg
      hni hext

/-- Witness for C7: five discovered files of which one (`b.html`) is
unreadable — the other four are all indexed and the bad file is logged. -/
theorem per_file_failure_isolated_witness :
    ("doc_a.html" ∈ (indexDirectory false (fun _ => true) fiveFileSystem ["d"] ⟨[]⟩).1.ids ∧
     "doc_c.csv" ∈ (indexDirectory false (fun _ => true) fiveFileSystem ["d"] ⟨[]⟩).1.ids ∧
     "doc_e.html" ∈ (indexDirectory false (fun _ => true) fiveFileSystem ["d"] ⟨[]⟩).1.ids ∧
     "doc_f.csv" ∈ (indexDirectory false (fun _ => true) fiveFileSystem ["d"] ⟨[]⟩).1.ids) ∧
    Event.extractFailed "d/b.html" ∈
      (indexDirectory false (fun _ => true) fiveFileSystem ["d"] ⟨[]⟩).2 :=
  ⟨⟨(per_file_failure_isolated (fun _ => true) fiveFileSystem ["d"] ⟨[]⟩
        ⟨["d"], "a.html", .markup ["one"]⟩ (by decide)).1 rfl rfl,
    (per_file_failure_isolated (fun _ => true) fiveFileSystem ["d"] ⟨[]⟩
        ⟨["d"], "c.csv", .table ["h"] [["v"]]⟩ (by decide)).1 rfl rfl,
    (per_file_failure_isolated (fun _ => true) fiveFileSystem ["d"] ⟨[]⟩
        ⟨["d"], "e.html", .markup ["two"]⟩ (by decide)).1 rfl rfl,
    (per_file_failure_isolated (fun _ => true) fiveFileSystem ["d"] ⟨[]⟩
        ⟨["d"], "f.csv", .table ["g"] [["w"]]⟩ (by decide)).1 rfl rfl⟩,
   (per_file_failure_isolated (fun _ => true) fiveFileSystem ["d"] ⟨[]⟩
        ⟨["d"], "b.html", .unreadable⟩ (by decide)).2 rfl (by decide)⟩

/-- Claim C8: every store failure at a round-trip call site is caught and
substituted with a safe fallback: `get_indexed_docs` returns the empty set,
`DocumentIndexer.search` returns the empty reply shape (so
`QueryEngine.search` yields the empty list, as it also does on an empty
collection's reply), and a store-rejected per-file insert is logged and the
batch continues — files whose inserts the store accepts are still indexed. -/
theorem store_failure_fallbacks (e : StoreErr) (addOk : Fyle → Bool)
    (fs : FileSystem) (root : List String) (st : StoreState) (f : Fyle)
    (hf : f ∈ discover fs root) (hnew : docId f ∉ st.ids)
    (hext : (extractText f).isOk = true) (hbad : addOk f = false) :
    getIndexedDocs (.error e) = [] ∧
    indexerSearch (.error e) = ⟨[], [], []⟩ ∧
    queryEngineSearch (indexerSearch (.error e)) = .ok [] ∧
    queryEngineSearch ⟨[[]], [[]], [[]]⟩ = .ok [] ∧
    (∃ b, Event.addFailed f.pathStr (docId f) b ∈
        (indexDirectory false addOk fs root st).2) ∧
    (∀ g ∈ discover fs root, (extractText g).isOk = true → addOk g = true →
        docId g ∈ (indexDirectory false addOk fs root st).1.ids) := by
  refine ⟨rfl, rfl, rfl, rfl, ?_, ?_⟩
  · exact addFailed_mem_processFiles addOk st.ids (discover fs root) st f hf
      hnew hext hbad
  · intro g hg hext' hadd'
    rcases docId_mem_of_processFiles_ok addOk st.ids (discover fs root) st g hg
        hext' hadd' with h | h
    · exact ids_subset_processFiles addOk st.ids (discover fs root) st h
    · exact h

/-- Witness for C8: the store rejects the insert of `c.csv` but accepts
`a.html`; the run logs the rejection and still indexes `a.html`. -/
theorem store_failure_fallbacks_witness :
    getIndexedDocs (.error .storeError) = [] ∧
    indexerSearch (.error .storeError) = ⟨[], [], []⟩ ∧
    queryEngineSearch (indexerSearch (.error .storeError)) = .ok [] ∧
    queryEngineSearch ⟨[[]], [[]], [[]]⟩ = .ok [] ∧
    (∃ b, Event.addFailed "d/c.csv" "doc_c.csv" b ∈
        (indexDirectory false (fun g => decide (¬ g.base = "c.csv"))
          ⟨[["d"]], [⟨["d"], "a.html", .markup ["one"]⟩,
                     ⟨["d"], "c.csv", .table ["h"] [["v"]]⟩]⟩ ["d"] ⟨[]⟩).2) ∧
    (∀ g ∈ discover ⟨[["d"]], [⟨["d"], "a.html", .markup ["one"]⟩,
                     ⟨["d"], "c.csv", .table ["h"] [["v"]]⟩]⟩ ["d"],
        (extractText g).isOk = true →
          (fun g => decide (¬ g.base = "c.csv")) g = true →
            docId g ∈ (indexDirectory false (fun g => decide (¬ g.base = "c.csv"))
              ⟨[["d"]], [⟨["d"], "a.html", .markup ["one"]⟩,
                         ⟨["d"], "c.csv", .table ["h"] [["v"]]⟩]⟩ ["d"] ⟨[]⟩).1.ids) :=
  store_failure_fallbacks .storeError (fun g => decide (¬ g.base = "c.csv"))
    ⟨[["d"]], [⟨["d"], "a.html", .markup ["one"]⟩,
               ⟨["d"], "c.csv", .table ["h"] [["v"]]⟩]⟩ ["d"] ⟨[]⟩
    ⟨["d"], "c.csv", .table ["h"] [["v"]]⟩ (by decide) (by decide) rfl (by decide)

/-- Claim C9: every `SearchResult` built by `QueryEngine.search` comes from
one raw `(document, metadata, distance)` triple of the store's reply, with
`content` equal to the first 200 characters of the document text and
`metadata` the store's metadata mapping unchanged. -/
theorem search_result_truncation (r : StoreReply) (out : List SearchResult)
    (h : queryEngineSearch r = .ok out) (res : SearchResult) (hres : res ∈ out) :
    ∃ doc md dist,
      doc ∈ r.documents.headD [] ∧ md ∈ r.metadatas.headD [] ∧
      dist ∈ r.distances.headD [] ∧
      res.content = pyTake doc 200 ∧ res.metadata = md ∧
      res = mkSearchResult doc md dist := by
  rcases r with ⟨docsL, mdsL, dsL⟩
  cases docsL with
  | nil =>
      simp only [queryEngineSearch] at h
      cases h
      cases hres
  | cons docs0 dr =>
      cases mdsL with
      | nil => cases h
      | cons mds0 mr =>
          cases dsL with
          | nil => cases h
          | cons ds0 sr =>
              have hout : out = zip3With mkSearchResult docs0 mds0 ds0 := by
                simp only [queryEngineSearch] at h
                exact (Except.ok.inj h).symm
              obtain ⟨d, m, q, hd, hm, hq, hx⟩ :=
                mem_zip3With mkSearchResult docs0 mds0 ds0 res (hout ▸ hres)
              exact ⟨d, m, q, by simpa using hd, by simpa using hm,
                by simpa using hq, by rw [hx]; rfl, by rw [hx]; rfl, hx⟩

/-- Witness for C9: a reply with one stored document. -/
theorem search_result_truncation_witness :
    ∃ doc md dist,
      doc ∈ ([["hello world document"]] : List (List String)).headD [] ∧
      md ∈ ([[(⟨"d/a.html", "html", "a.html"⟩ : Metadata)]] : List (List Metadata)).headD [] ∧
      dist ∈ ([[(1 : ℚ)/2]] : List (List ℚ)).headD [] ∧
      (mkSearchResult "hello world document" ⟨"d/a.html", "html", "a.html"⟩ (1/2)).content =
        pyTake doc 200 ∧
      (mkSearchResult "hello world document" ⟨"d/a.html", "html", "a.html"⟩ (1/2)).metadata = md ∧
      mkSearchResult "hello world document" ⟨"d/a.html", "html", "a.html"⟩ (1/2) =
        mkSearchResult doc md dist :=
  search_result_truncation
    ⟨[["hello world document"]], [[⟨"d/a.html", "html", "a.html"⟩]], [[1/2]]⟩
    [mkSearchResult "hello world document" ⟨"d/a.html", "html", "a.html"⟩ (1/2)]
    rfl
    (mkSearchResult "hello world document" ⟨"d/a.html", "html", "a.html"⟩ (1/2))
    (List.mem_singleton.mpr rfl)

/-- Claim C10: `QueryEngine.search` builds its output from `documents[0]`,
`metadatas[0]`, `distances[0]` only, returning one `SearchResult` per
position of their element-wise zip (so `min` of the three inner lengths
results, in the store's order), and returns the empty list when the reply's
outer `documents` list is empty (the store-error fallback shape). -/
theorem search_first_query_zip (r : StoreReply) :
    (∀ docs0 dr mds0 mr ds0 sr,
        r.documents = docs0 :: dr → r.metadatas = mds0 :: mr →
          r.distances = ds0 :: sr →
            queryEngineSearch r = .ok (zip3With mkSearchResult docs0 mds0 ds0) ∧
            (zip3With mkSearchResult docs0 mds0 ds0).length =
              min docs0.length (min mds0.length ds0.length)) ∧
    (r.documents = [] → queryEngineSearch r = .ok []) := by
  constructor
  · intro docs0 dr mds0 mr ds0 sr hd hm hs
    rcases r with ⟨a, b, c⟩
    cases hd
    cases hm
    cases hs
    exact ⟨rfl, length_zip3With mkSearchResult docs0 mds0 ds0⟩
  · intro hd
    rcases r with ⟨a, b, c⟩
    cases hd
    rfl

/-- Witness for C10: a two-element reply whose inner lists have lengths
2, 2, 1 (one result comes back), and the fallback shape (empty list). -/
theorem search_first_query_zip_witness :
    (queryEngineSearch ⟨[["dA", "dB"]],
        [[⟨"sA", "html", "fA"⟩, ⟨"sB", "html", "fB"⟩]], [[1/4]]⟩ =
      .ok (zip3With mkSearchResult ["dA", "dB"]
        [⟨"sA", "html", "fA"⟩, ⟨"sB", "html", "fB"⟩] [1/4]) ∧
      (zip3With mkSearchResult ["dA", "dB"]
        [⟨"sA", "html", "fA"⟩, ⟨"sB", "html", "fB"⟩] [(1 : ℚ)/4]).length =
        min (["dA", "dB"] : List String).length
          (min ([(⟨"sA", "html", "fA"⟩ : Metadata), ⟨"sB", "html", "fB"⟩]).length
            ([(1 : ℚ)/4]).length)) ∧
    queryEngineSearch ⟨[], [], []⟩ = .ok [] :=
  ⟨(search_first_query_zip ⟨[["dA", "dB"]],
        [[⟨"sA", "html", "fA"⟩, ⟨"sB", "html", "fB"⟩]], [[1/4]]⟩).1
      ["dA", "dB"] [] [⟨"sA", "html", "fA"⟩, ⟨"sB", "html", "fB"⟩] [] [1/4] []
      rfl rfl rfl,
   (search_first_query_zip ⟨[], [], []⟩).2 rfl⟩

end SecondMe
